import Mathlib

/-!
Verification of the build orchestrator (`build/build.py` and
`build/modules/win/compile.py`) of the BrowserOS repository.

The embedding models:
* parameter resolution in `build_main` (CLI flags, optional parsed config
  document, filesystem existence checks),
* `BuildContext` construction,
* the sequential stage pipeline with slack notification call sites and
  the process exit status,
* the Windows compile wrapper's post-construction context mutation.

The filesystem is abstracted as a predicate `String → Bool` (does the path
exist), stage implementations as a behaviour function
`BuildContext → Stage → StageOutcome`, and notification delivery as an
oracle `Event → Bool`.
-/

/-- The `steps` section of the YAML config document (each key optional). -/
structure StepsSection where
  clean : Option Bool := none
  git_setup : Option Bool := none
  apply_patches : Option Bool := none
  build : Option Bool := none
  sign : Option Bool := none
  package : Option Bool := none
deriving DecidableEq, Repr

/-- The `build` section of the config document. -/
structure BuildSection where
  type : Option String := none
  architecture : Option String := none
deriving DecidableEq, Repr

/-- The `notifications` section of the config document. -/
structure NotificationsSection where
  slack : Option Bool := none
deriving DecidableEq, Repr

/-- The `gn_flags` section of the config document. -/
structure GnFlagsSection where
  file : Option String := none
deriving DecidableEq, Repr

/-- The `paths` section of the config document. -/
structure PathsSection where
  chromium_src : Option String := none
deriving DecidableEq, Repr

/-- A parsed config document: five optional sections (`build.py` lines 72-98). -/
structure Config where
  build : Option BuildSection := none
  steps : Option StepsSection := none
  notifications : Option NotificationsSection := none
  gn_flags : Option GnFlagsSection := none
  paths : Option PathsSection := none
deriving DecidableEq, Repr

/-- The arguments of `build_main` (`build.py` lines 34-46).  `config_file`
is the already-parsed document when a config file was supplied. -/
structure CLIArgs where
  config_file : Option Config := none
  clean_flag : Bool := false
  git_setup_flag : Bool := false
  apply_patches_flag : Bool := false
  sign_flag : Bool := false
  package_flag : Bool := false
  build_flag : Bool := false
  arch : String := "arm64"
  build_type : String := "debug"
  chromium_src_dir : Option String := none
  slack_notifications : Bool := false
deriving DecidableEq, Repr

/-- The run parameters after the resolution phase of `build_main`
(lines 51-98), together with the warnings logged during resolution. -/
structure ResolvedParams where
  chromium_src : String
  build_type : String
  arch : String
  clean_flag : Bool
  git_setup_flag : Bool
  apply_patches_flag : Bool
  build_flag : Bool
  sign_flag : Bool
  package_flag : Bool
  slack_notifications : Bool
  gn_flags_file : Option String
  warnings : List String
deriving DecidableEq, Repr

/-- The fallback source directory `root_dir / "chromium_src"` (line 59). -/
def defaultChromiumSrc (root_dir : String) : String :=
  root_dir ++ "/chromium_src"

/-- Parameter resolution of `build_main` (`build.py` lines 51-98).
`fs p` tells whether path `p` exists.  First the CLI-supplied source
directory is checked (lines 55-62), then, when a config file was given,
its sections override the parameters (lines 67-98); the `paths` section is
applied after the CLI path and wins when its path exists (lines 94-98). -/
def resolveParams (fs : String → Bool) (root_dir : String) (a : CLIArgs) :
    ResolvedParams :=
  let cliSrc :=
    match a.chromium_src_dir with
    | some p =>
        if fs p then (p, ([] : List String))
        else (defaultChromiumSrc root_dir,
              ["Provided path does not exist: " ++ p])
    | none => (defaultChromiumSrc root_dir, [])
  match a.config_file with
  | none =>
      { chromium_src := cliSrc.1
        build_type := a.build_type
        arch := a.arch
        clean_flag := a.clean_flag
        git_setup_flag := a.git_setup_flag
        apply_patches_flag := a.apply_patches_flag
        build_flag := a.build_flag
        sign_flag := a.sign_flag
        package_flag := a.package_flag
        slack_notifications := a.slack_notifications
        gn_flags_file := none
        warnings := cliSrc.2 }
  | some config =>
      let build_type :=
        match config.build with
        | some b => b.type.getD a.build_type
        | none => a.build_type
      let arch :=
        match config.build with
        | some b => b.architecture.getD a.arch
        | none => a.arch
      let clean_flag :=
        match config.steps with
        | some s => s.clean.getD a.clean_flag
        | none => a.clean_flag
      let git_setup_flag :=
        match config.steps with
        | some s => s.git_setup.getD a.git_setup_flag
        | none => a.git_setup_flag
      let apply_patches_flag :=
        match config.steps with
        | some s => s.apply_patches.getD a.apply_patches_flag
        | none => a.apply_patches_flag
      let build_flag :=
        match config.steps with
        | some s => s.build.getD a.build_flag
        | none => a.build_flag
      let sign_flag :=
        match config.steps with
        | some s => s.sign.getD a.sign_flag
        | none => a.sign_flag
      let package_flag :=
        match config.steps with
        | some s => s.package.getD a.package_flag
        | none => a.package_flag
      let slack_notifications :=
        match config.notifications with
        | some n => n.slack.getD a.slack_notifications
        | none => a.slack_notifications
      let gn_flags_file :=
        match config.gn_flags with
        | some g => g.file
        | none => none
      let chromium_src :=
        match config.paths with
        | some ps =>
            match ps.chromium_src with
            | some q => if fs q then q else cliSrc.1
            | none => cliSrc.1
        | none => cliSrc.1
      { chromium_src := chromium_src
        build_type := build_type
        arch := arch
        clean_flag := clean_flag
        git_setup_flag := git_setup_flag
        apply_patches_flag := apply_patches_flag
        build_flag := build_flag
        sign_flag := sign_flag
        package_flag := package_flag
        slack_notifications := slack_notifications
        gn_flags_file := gn_flags_file
        warnings := cliSrc.2 }

/-- The source directory as resolved from CLI and default alone
(`build.py` lines 55-62), before the config `paths` section is consulted. -/
def cliResolvedSrc (fs : String → Bool) (root_dir : String) (a : CLIArgs) :
    String :=
  match a.chromium_src_dir with
  | some p => if fs p then p else defaultChromiumSrc root_dir
  | none => defaultChromiumSrc root_dir

/-- The `paths.chromium_src` value of the config document, when present. -/
def configSrc (a : CLIArgs) : Option String :=
  match a.config_file with
  | some config =>
      match config.paths with
      | some ps => ps.chromium_src
      | none => none
  | none => none

/-- Modelled from the spec: `context.py` is not under `src/`; §3 says the
version identifiers are "derived from fixed project metadata, not
overridable by flags", so they are constants of the embedding. -/
def CHROMIUM_VERSION : String := "chromium-version"

/-- Modelled from the spec: the product version constant from project
metadata (`context.py` is not under `src/`). -/
def NXTSCAPE_VERSION : String := "nxtscape-version"

/-- Modelled from the spec: default application-name constant of
`BuildContext` (`context.py` is not under `src/`); the Windows wrapper
overrides it to `chrome.exe`, so the default is the macOS app bundle. -/
def CHROMIUM_APP_NAME_DEFAULT : String := "Chromium.app"

/-- Modelled from the spec: default product application-name constant of
`BuildContext` (`context.py` is not under `src/`). -/
def NXTSCAPE_APP_NAME_DEFAULT : String := "Nxtscape.app"

/-- The execution context handed to every stage (`BuildContext`).
Modelled from the spec: `context.py` is not under `src/`; fields follow
§3 of the spec and the constructor calls in `build.py` lines 100-109 and
`modules/win/compile.py` lines 51-63.  `out_dir` is derived from the
architecture at construction. -/
structure BuildContext where
  root_dir : String
  chromium_src : String
  architecture : String
  build_type : String
  apply_patches : Bool
  sign_package : Bool
  package : Bool
  build : Bool
  chromium_version : String
  nxtscape_version : String
  start_time : Nat
  CHROMIUM_APP_NAME : String
  NXTSCAPE_APP_NAME : String
  out_dir : String
deriving DecidableEq, Repr

/-- Construction of a `BuildContext` from explicit constructor arguments
(`BuildContext(...)`), capturing `start_time` at construction.  Modelled
from the spec for the fields `context.py` would default. -/
def mkBuildContext (root_dir chromium_src arch build_type : String)
    (apply_patches sign_package pkg bld : Bool) (now : Nat) : BuildContext :=
  { root_dir := root_dir
    chromium_src := chromium_src
    architecture := arch
    build_type := build_type
    apply_patches := apply_patches
    sign_package := sign_package
    package := pkg
    build := bld
    chromium_version := CHROMIUM_VERSION
    nxtscape_version := NXTSCAPE_VERSION
    start_time := now
    CHROMIUM_APP_NAME := CHROMIUM_APP_NAME_DEFAULT
    NXTSCAPE_APP_NAME := NXTSCAPE_APP_NAME_DEFAULT
    out_dir := "out/Default_" ++ arch }

/-- The context constructed by `build_main` (`build.py` lines 100-109)
from the resolved parameters. -/
def contextOf (root_dir : String) (p : ResolvedParams) (now : Nat) :
    BuildContext :=
  mkBuildContext root_dir p.chromium_src p.arch p.build_type
    p.apply_patches_flag p.sign_flag p.package_flag p.build_flag now

/-- All fields of a `BuildContext` except `start_time`, for the
determinism statement. -/
def ctxCore (c : BuildContext) :
    String × String × String × String × Bool × Bool × Bool × Bool ×
    String × String × String × String × String :=
  (c.root_dir, c.chromium_src, c.architecture, c.build_type,
   c.apply_patches, c.sign_package, c.package, c.build,
   c.chromium_version, c.nxtscape_version,
   c.CHROMIUM_APP_NAME, c.NXTSCAPE_APP_NAME, c.out_dir)

/-- The context constructed by the Windows compile wrapper
(`modules/win/compile.py` lines 51-56): architecture `x64`, build type
`debug`, chromium source `C:/src/chromium`. -/
def winContext (root_dir : String) (now : Nat) : BuildContext :=
  mkBuildContext root_dir "C:/src/chromium" "x64" "debug"
    false false false false now

/-- The post-construction mutation performed by the Windows compile
wrapper (`modules/win/compile.py` lines 58-63): it assigns
`ctx.CHROMIUM_APP_NAME`, `ctx.NXTSCAPE_APP_NAME` and `ctx.out_dir`. -/
def winOverride (c : BuildContext) : BuildContext :=
  { c with
    CHROMIUM_APP_NAME := "chrome.exe"
    NXTSCAPE_APP_NAME := "BrowserOS.exe"
    out_dir := "out\\Default_" ++ c.architecture }

/-- The names of the fields on which two contexts differ. -/
def changedFields (a b : BuildContext) : List String :=
  (if a.root_dir = b.root_dir then [] else ["root_dir"]) ++
  (if a.chromium_src = b.chromium_src then [] else ["chromium_src"]) ++
  (if a.architecture = b.architecture then [] else ["architecture"]) ++
  (if a.build_type = b.build_type then [] else ["build_type"]) ++
  (if a.apply_patches = b.apply_patches then [] else ["apply_patches"]) ++
  (if a.sign_package = b.sign_package then [] else ["sign_package"]) ++
  (if a.package = b.package then [] else ["package"]) ++
  (if a.build = b.build then [] else ["build"]) ++
  (if a.chromium_version = b.chromium_version then [] else
    ["chromium_version"]) ++
  (if a.nxtscape_version = b.nxtscape_version then [] else
    ["nxtscape_version"]) ++
  (if a.start_time = b.start_time then [] else ["start_time"]) ++
  (if a.CHROMIUM_APP_NAME = b.CHROMIUM_APP_NAME then [] else
    ["CHROMIUM_APP_NAME"]) ++
  (if a.NXTSCAPE_APP_NAME = b.NXTSCAPE_APP_NAME then [] else
    ["NXTSCAPE_APP_NAME"]) ++
  (if a.out_dir = b.out_dir then [] else ["out_dir"])

/-- The six pipeline stages of `build_main` (`build.py` lines 124-154).
The `applyPatches` position bundles `setup_sparkle`, `apply_patches` and
`copy_resources`; the `build` position bundles `configure` and `build`. -/
inductive Stage where
  | clean
  | gitSetup
  | applyPatches
  | build
  | sign
  | package
deriving DecidableEq, Repr, Fintype

/-- Position of a stage in the fixed pipeline order. -/
def stagePos : Stage → Nat
  | .clean => 0
  | .gitSetup => 1
  | .applyPatches => 2
  | .build => 3
  | .sign => 4
  | .package => 5

/-- The fixed pipeline order (`build.py` lines 124-154). -/
def pipelineOrder : List Stage :=
  [.clean, .gitSetup, .applyPatches, .build, .sign, .package]

/-- The step-completion message sent for each stage
(`build.py` lines 127, 132, 139, 145, 150, 154). -/
def stageDesc : Stage → String
  | .clean => "Completed cleaning build artifacts"
  | .gitSetup => "Completed Git setup and Chromium source"
  | .applyPatches => "Completed applying patches and copying resources"
  | .build => "Completed configuring and building Nxtscape"
  | .sign => "Completed signing and notarizing application"
  | .package => "Completed creating DMG package"

/-- The gating boolean of each stage in the resolved parameters
(`build.py` lines 124, 129, 134, 141, 147, 151). -/
def selFlag (p : ResolvedParams) : Stage → Bool
  | .clean => p.clean_flag
  | .gitSetup => p.git_setup_flag
  | .applyPatches => p.apply_patches_flag
  | .build => p.build_flag
  | .sign => p.sign_flag
  | .package => p.package_flag

/-- The pipeline together with each stage's gating boolean. -/
def selectionList (p : ResolvedParams) : List (Stage × Bool) :=
  pipelineOrder.map (fun s => (s, selFlag p s))

/-- The stages selected to run, in pipeline order. -/
def selectedStages (p : ResolvedParams) : List Stage :=
  pipelineOrder.filter (fun s => selFlag p s)

/-- The stages strictly before `s` in the pipeline order. -/
def stagesBefore (s : Stage) : List Stage :=
  pipelineOrder.filter (fun t => stagePos t < stagePos s)

/-- The stages strictly after `s` in the pipeline order. -/
def stagesAfter (s : Stage) : List Stage :=
  pipelineOrder.filter (fun t => stagePos s < stagePos t)

/-- Outcome of executing one stage: normal return, an exception
(a fault), or a `KeyboardInterrupt` arriving during the stage. -/
inductive StageOutcome where
  | success
  | fault (msg : String)
  | interrupt
deriving DecidableEq, Repr

/-- Orchestration events: stage executions (recording the context the
stage was handed) and the notification calls of `modules/slack.py`. -/
inductive Event where
  | stageExec (s : Stage) (c : BuildContext)
  | runStarted (build_type arch : String)
  | stepCompleted (desc : String)
  | runSucceeded (mins secs : Nat)
  | runFailed (msg : String)
  | runInterrupted
deriving DecidableEq, Repr

/-- `true` for the notification events (the `notify_*` call sites),
`false` for stage executions. -/
def isNotifyEvent : Event → Bool
  | .stageExec _ _ => false
  | _ => true

/-- Modelled from the spec: `modules/slack.py` is not under `src/`.
Per §4.5/§7, delivery may fail (`NotificationDeliveryError`); the
`delivery` oracle says whether delivering event `e` succeeds. -/
def deliverNotification (delivery : Event → Bool) (e : Event) :
    Except String Unit :=
  if delivery e then Except.ok () else Except.error "delivery failed"

/-- Modelled from the spec: §7 says a delivery error is "caught and
discarded at the notification call site ... never propagated".  A notify
call therefore always returns; it yields the attempted event list and the
delivered event list. -/
def notifyAttempt (delivery : Event → Bool) (e : Event) :
    List Event × List Event :=
  match deliverNotification delivery e with
  | Except.ok _ => ([e], [e])
  | Except.error _ => ([e], [])

/-- Result of executing a list of gated stages: the trace of stage
executions and attempted notifications, the delivered notifications, and
the aggregate outcome. -/
structure ExecResult where
  trace : List Event
  delivered : List Event
  outcome : StageOutcome
deriving DecidableEq, Repr

/-- Execution of the gated stage list inside the `try` block of
`build_main` (`build.py` lines 123-154): a stage whose flag is false is
skipped; a selected stage runs, and on success a `notify_build_step`
call fires (when notifications are enabled) before the next stage; a
fault or interrupt stops the iteration. -/
def execStages (slack : Bool) (delivery : Event → Bool)
    (ctx : BuildContext) (beh : BuildContext → Stage → StageOutcome) :
    List (Stage × Bool) → ExecResult
  | [] => ⟨[], [], .success⟩
  | (s, flag) :: rest =>
      if flag then
        match beh ctx s with
        | .success =>
            let n := if slack then
                notifyAttempt delivery (Event.stepCompleted (stageDesc s))
              else ([], [])
            let r := execStages slack delivery ctx beh rest
            ⟨Event.stageExec s ctx :: (n.1 ++ r.trace),
             n.2 ++ r.delivered, r.outcome⟩
        | .fault m => ⟨[Event.stageExec s ctx], [], .fault m⟩
        | .interrupt => ⟨[Event.stageExec s ctx], [], .interrupt⟩
      else execStages slack delivery ctx beh rest

/-- Result of a whole orchestrated run: the process exit status, the
event trace, and the delivered notifications. -/
structure RunResult where
  exit : Nat
  trace : List Event
  delivered : List Event
deriving DecidableEq, Repr

/-- The terminal notification fired for each run outcome
(`build.py` lines 167, 172, 177): `notify_build_success(mins, secs)` on
normal completion, `notify_build_failure(msg)` on an exception,
`notify_build_interrupted()` on `KeyboardInterrupt`. -/
def terminalEvent (elapsed : Nat) : StageOutcome → Event
  | .success => Event.runSucceeded (elapsed / 60) (elapsed % 60)
  | .fault m => Event.runFailed m
  | .interrupt => Event.runInterrupted

/-- The process exit status for each run outcome: `build_main` returns
normally on success (exit status 0), calls `sys.exit(130)` on
`KeyboardInterrupt` (line 173) and `sys.exit(1)` on any other exception
(line 178). -/
def exitCode : StageOutcome → Nat
  | .success => 0
  | .fault _ => 1
  | .interrupt => 130

/-- The orchestrated run of `build_main` after context construction
(`build.py` lines 118-178): `notify_build_started` fires when enabled
(lines 119-120); the stages run inside `try` (lines 123-154); the
terminal notification and exit status follow the outcome (lines
156-178). -/
def runBuild (p : ResolvedParams) (ctx : BuildContext)
    (beh : BuildContext → Stage → StageOutcome) (elapsed : Nat)
    (delivery : Event → Bool) : RunResult :=
  let pre := if p.slack_notifications then
      notifyAttempt delivery (Event.runStarted ctx.build_type ctx.architecture)
    else ([], [])
  let r := execStages p.slack_notifications delivery ctx beh
    (selectionList p)
  let post := if p.slack_notifications then
      notifyAttempt delivery (terminalEvent elapsed r.outcome)
    else ([], [])
  ⟨exitCode r.outcome, pre.1 ++ r.trace ++ post.1,
   pre.2 ++ r.delivered ++ post.2⟩

/-- The whole of `build_main`: resolution, context construction, run. -/
def buildMain (fs : String → Bool) (root_dir : String) (a : CLIArgs)
    (now elapsed : Nat) (beh : BuildContext → Stage → StageOutcome)
    (delivery : Event → Bool) : RunResult :=
  let p := resolveParams fs root_dir a
  let ctx := contextOf root_dir p now
  runBuild p ctx beh elapsed delivery

/-- The stage of a stage-execution event, `none` for notifications. -/
def stageOf : Event → Option Stage
  | .stageExec s _ => some s
  | _ => none

/-- The stages that actually executed during a run, in trace order. -/
def executedStages (r : RunResult) : List Stage :=
  r.trace.filterMap stageOf

/-- `true` exactly for `runFailed` events. -/
def isRunFailedEv : Event → Bool
  | .runFailed _ => true
  | _ => false

/-- The trace produced by a gated stage list when every selected stage
succeeds: each selected stage contributes its execution event and, when
notifications are enabled, its step-completion notification. -/
def successTrace (slack : Bool) (ctx : BuildContext) :
    List (Stage × Bool) → List Event
  | [] => []
  | (s, flag) :: rest =>
      (if flag then
        Event.stageExec s ctx ::
          (if slack then [Event.stepCompleted (stageDesc s)] else [])
      else []) ++ successTrace slack ctx rest

/-- The delivered notifications matching `successTrace`. -/
def successDelivered (slack : Bool) (d : Event → Bool)
    (ctx : BuildContext) : List (Stage × Bool) → List Event
  | [] => []
  | (s, flag) :: rest =>
      (if flag then
        (if slack then
          (notifyAttempt d (Event.stepCompleted (stageDesc s))).2
        else [])
      else []) ++ successDelivered slack d ctx rest

/-! ### Sample inputs used by closed evaluations -/

/-- A resolved parameter set with every stage selected and notifications
enabled. -/
def sampleParams : ResolvedParams :=
  { chromium_src := "/src"
    build_type := "debug"
    arch := "arm64"
    clean_flag := true
    git_setup_flag := true
    apply_patches_flag := true
    build_flag := true
    sign_flag := true
    package_flag := true
    slack_notifications := true
    gn_flags_file := none
    warnings := [] }

/-- `sampleParams` with notifications disabled. -/
def sampleParamsNoSlack : ResolvedParams :=
  { sampleParams with slack_notifications := false }

/-- A sample context. -/
def sampleCtx : BuildContext := contextOf "/root" sampleParams 0

/-- Stage behaviour where every stage succeeds. -/
def allSuccess : BuildContext → Stage → StageOutcome :=
  fun _ _ => StageOutcome.success

/-- Stage behaviour where the build stage raises a fault. -/
def faultAtBuild : BuildContext → Stage → StageOutcome :=
  fun _ t =>
    if t = Stage.build then StageOutcome.fault "boom"
    else StageOutcome.success

/-- Stage behaviour where the sign stage is interrupted. -/
def interruptAtSign : BuildContext → Stage → StageOutcome :=
  fun _ t =>
    if t = Stage.sign then StageOutcome.interrupt
    else StageOutcome.success

/-- Delivery oracle where every notification is delivered. -/
def allDeliver : Event → Bool := fun _ => true

/-- Delivery oracle where no notification is delivered. -/
def noDeliver : Event → Bool := fun _ => false

/-- A filesystem on which no path exists. -/
def noFS : String → Bool := fun _ => false

/-- CLI input of the C7 scenario: only `--build` on the CLI, a config
file whose `steps` section sets only `sign: true`. -/
def c7args : CLIArgs :=
  { build_flag := true
    config_file := some { steps := some { sign := some true } } }

/-- CLI input with a config file whose sections are all absent. -/
def c8args : CLIArgs :=
  { config_file := some {}
    clean_flag := true
    sign_flag := true
    slack_notifications := true }

/-- CLI input selecting only the clean stage, no config file. -/
def c9args : CLIArgs := { clean_flag := true }

/-- The context `build_main` constructs from `c9args`. -/
def c9ctx : BuildContext :=
  contextOf "/root" (resolveParams noFS "/root" c9args) 0

/-! ### Helper lemmas -/

lemma notifyAttempt_fst (d : Event → Bool) (e : Event) :
    (notifyAttempt d e).1 = [e] := by
  cases h : d e <;> simp [notifyAttempt, deliverNotification, h]

lemma mem_pipelineOrder (s : Stage) : s ∈ pipelineOrder := by
  cases s <;> simp [pipelineOrder]

lemma mem_stagesBefore {s t : Stage} :
    t ∈ stagesBefore s ↔ stagePos t < stagePos s := by
  revert s t; decide

lemma selectionList_decomp (p : ResolvedParams) (s : Stage) :
    selectionList p =
      (stagesBefore s).map (fun t => (t, selFlag p t)) ++
        (s, selFlag p s) ::
          (stagesAfter s).map (fun t => (t, selFlag p t)) := by
  cases s <;> rfl


lemma execStages_nil {slack : Bool} {d : Event → Bool}
    {ctx : BuildContext} {beh : BuildContext → Stage → StageOutcome} :
    execStages slack d ctx beh [] = ⟨[], [], StageOutcome.success⟩ := rfl

lemma execStages_cons_false {slack : Bool} {d : Event → Bool}
    {ctx : BuildContext} {beh : BuildContext → Stage → StageOutcome}
    {s : Stage} {l : List (Stage × Bool)} :
    execStages slack d ctx beh ((s, false) :: l) =
      execStages slack d ctx beh l := rfl

lemma execStages_cons_success {slack : Bool} {d : Event → Bool}
    {ctx : BuildContext} {beh : BuildContext → Stage → StageOutcome}
    {s : Stage} {l : List (Stage × Bool)}
    (hs : beh ctx s = StageOutcome.success) :
    execStages slack d ctx beh ((s, true) :: l) =
      ⟨Event.stageExec s ctx ::
        ((if slack then [Event.stepCompleted (stageDesc s)] else []) ++
          (execStages slack d ctx beh l).trace),
       (if slack then
          (notifyAttempt d (Event.stepCompleted (stageDesc s))).2
        else []) ++ (execStages slack d ctx beh l).delivered,
       (execStages slack d ctx beh l).outcome⟩ := by
  cases slack <;> simp [execStages, hs, notifyAttempt_fst]

lemma execStages_cons_fault {slack : Bool} {d : Event → Bool}
    {ctx : BuildContext} {beh : BuildContext → Stage → StageOutcome}
    {s : Stage} {l : List (Stage × Bool)} {m : String}
    (hs : beh ctx s = StageOutcome.fault m) :
    execStages slack d ctx beh ((s, true) :: l) =
      ⟨[Event.stageExec s ctx], [], StageOutcome.fault m⟩ := by
  simp [execStages, hs]

lemma execStages_cons_interrupt {slack : Bool} {d : Event → Bool}
    {ctx : BuildContext} {beh : BuildContext → Stage → StageOutcome}
    {s : Stage} {l : List (Stage × Bool)}
    (hs : beh ctx s = StageOutcome.interrupt) :
    execStages slack d ctx beh ((s, true) :: l) =
      ⟨[Event.stageExec s ctx], [], StageOutcome.interrupt⟩ := by
  simp [execStages, hs]

lemma execStages_success_of {slack : Bool} {d : Event → Bool}
    {ctx : BuildContext} {beh : BuildContext → Stage → StageOutcome}
    (l : List (Stage × Bool))
    (h : ∀ x ∈ l, x.2 = true → beh ctx x.1 = StageOutcome.success) :
    execStages slack d ctx beh l =
      ⟨successTrace slack ctx l, successDelivered slack d ctx l,
       StageOutcome.success⟩ := by
  induction l with
  | nil => rfl
  | cons x rest ih =>
      obtain ⟨s, flag⟩ := x
      have hrest : ∀ x ∈ rest, x.2 = true →
          beh ctx x.1 = StageOutcome.success :=
        fun x hx => h x (List.mem_cons_of_mem _ hx)
      cases flag with
      | false =>
          rw [execStages_cons_false, ih hrest]
          simp [successTrace, successDelivered]
      | true =>
          have hs : beh ctx s = StageOutcome.success :=
            h (s, true) (List.mem_cons_self _ _) rfl
          rw [execStages_cons_success hs, ih hrest]
          simp [successTrace, successDelivered]

lemma execStages_halt {slack : Bool} {d : Event → Bool}
    {ctx : BuildContext} {beh : BuildContext → Stage → StageOutcome}
    (l1 l2 : List (Stage × Bool)) (s : Stage)
    (h1 : ∀ x ∈ l1, x.2 = true → beh ctx x.1 = StageOutcome.success)
    (h2 : beh ctx s ≠ StageOutcome.success) :
    execStages slack d ctx beh (l1 ++ (s, true) :: l2) =
      ⟨successTrace slack ctx l1 ++ [Event.stageExec s ctx],
       successDelivered slack d ctx l1, beh ctx s⟩ := by
  induction l1 with
  | nil =>
      simp only [List.nil_append]
      cases hb : beh ctx s with
      | success => exact absurd hb h2
      | fault m =>
          rw [execStages_cons_fault hb]
          simp [successTrace, successDelivered]
      | interrupt =>
          rw [execStages_cons_interrupt hb]
          simp [successTrace, successDelivered]
  | cons x rest ih =>
      obtain ⟨t, flag⟩ := x
      have hrest : ∀ x ∈ rest, x.2 = true →
          beh ctx x.1 = StageOutcome.success :=
        fun x hx => h1 x (List.mem_cons_of_mem _ hx)
      cases flag with
      | false =>
          rw [List.cons_append, execStages_cons_false, ih hrest]
          simp [successTrace, successDelivered]
      | true =>
          have ht : beh ctx t = StageOutcome.success :=
            h1 (t, true) (List.mem_cons_self _ _) rfl
          rw [List.cons_append, execStages_cons_success ht, ih hrest]
          simp [successTrace, successDelivered]

lemma successTrace_mem {slack : Bool} {ctx : BuildContext}
    (l : List (Stage × Bool)) (e : Event)
    (h : e ∈ successTrace slack ctx l) :
    ∃ x, x ∈ l ∧ x.2 = true ∧
      (e = Event.stageExec x.1 ctx ∨
       e = Event.stepCompleted (stageDesc x.1)) := by
  induction l with
  | nil => simp [successTrace] at h
  | cons x rest ih =>
      obtain ⟨s, flag⟩ := x
      cases flag with
      | false =>
          rw [show successTrace slack ctx ((s, false) :: rest) =
              successTrace slack ctx rest by simp [successTrace]] at h
          obtain ⟨x, hx, h2, h3⟩ := ih h
          exact ⟨x, List.mem_cons_of_mem _ hx, h2, h3⟩
      | true =>
          cases slack with
          | false =>
              simp only [successTrace, if_pos, if_neg, Bool.false_eq_true,
                List.cons_append, List.nil_append, List.mem_cons] at h
              rcases h with rfl | h
              · exact ⟨(s, true), List.mem_cons_self _ _, rfl, Or.inl rfl⟩
              · obtain ⟨x, hx, h2, h3⟩ := ih h
                exact ⟨x, List.mem_cons_of_mem _ hx, h2, h3⟩
          | true =>
              simp only [successTrace, if_pos, List.cons_append,
                List.singleton_append, List.mem_cons] at h
              rcases h with rfl | rfl | h
              · exact ⟨(s, true), List.mem_cons_self _ _, rfl, Or.inl rfl⟩
              · exact ⟨(s, true), List.mem_cons_self _ _, rfl, Or.inr rfl⟩
              · obtain ⟨x, hx, h2, h3⟩ := ih h
                exact ⟨x, List.mem_cons_of_mem _ hx, h2, h3⟩

lemma execStages_trace_indep {slack : Bool} (d1 d2 : Event → Bool)
    {ctx : BuildContext} {beh : BuildContext → Stage → StageOutcome}
    (l : List (Stage × Bool)) :
    (execStages slack d1 ctx beh l).trace =
        (execStages slack d2 ctx beh l).trace ∧
      (execStages slack d1 ctx beh l).outcome =
        (execStages slack d2 ctx beh l).outcome := by
  induction l with
  | nil => exact ⟨rfl, rfl⟩
  | cons x rest ih =>
      obtain ⟨s, flag⟩ := x
      cases flag with
      | false =>
          rw [execStages_cons_false, execStages_cons_false]
          exact ih
      | true =>
          cases hb : beh ctx s with
          | success =>
              refine ⟨?_, ?_⟩ <;>
                simp [execStages_cons_success hb, ih.1, ih.2]
          | fault m =>
              rw [execStages_cons_fault hb, execStages_cons_fault hb]
              exact ⟨rfl, rfl⟩
          | interrupt =>
              rw [execStages_cons_interrupt hb, execStages_cons_interrupt hb]
              exact ⟨rfl, rfl⟩

lemma execStages_ctx {slack : Bool} {d : Event → Bool}
    {ctx : BuildContext} {beh : BuildContext → Stage → StageOutcome}
    (l : List (Stage × Bool)) :
    ∀ e ∈ (execStages slack d ctx beh l).trace,
      ∀ s c, e = Event.stageExec s c → c = ctx := by
  induction l with
  | nil => intro e he; simp [execStages_nil] at he
  | cons x rest ih =>
      obtain ⟨s, flag⟩ := x
      cases flag with
      | false =>
          rw [execStages_cons_false]
          exact ih
      | true =>
          intro e he t c hec
          cases hb : beh ctx s with
          | success =>
              rw [execStages_cons_success hb] at he
              simp only [List.mem_cons, List.mem_append] at he
              rcases he with rfl | he | he
              · injection hec with h1 h2
                exact h2.symm
              · cases slack with
                | false => simp at he
                | true =>
                    simp only [if_pos, List.mem_singleton] at he
                    subst he
                    simp at hec
              · exact ih e he t c hec
          | fault m =>
              rw [execStages_cons_fault hb] at he
              simp only [List.mem_singleton] at he
              subst he
              injection hec with h1 h2
              exact h2.symm
          | interrupt =>
              rw [execStages_cons_interrupt hb] at he
              simp only [List.mem_singleton] at he
              subst he
              injection hec with h1 h2
              exact h2.symm

lemma mem_if_singleton {α : Type} {b : Bool} {e x : α}
    (h : e ∈ (if b then [x] else [])) : e = x := by
  cases b with
  | false => simp at h
  | true => simpa using h

lemma stageDesc_inj (u t : Stage) (h : stageDesc u = stageDesc t) :
    u = t := by
  revert h; revert u t; decide

lemma stageOf_terminal (elapsed : Nat) (o : StageOutcome) :
    stageOf (terminalEvent elapsed o) = none := by
  cases o <;> rfl

lemma runBuild_exit (p : ResolvedParams) (ctx : BuildContext)
    (beh : BuildContext → Stage → StageOutcome) (elapsed : Nat)
    (d : Event → Bool) :
    (runBuild p ctx beh elapsed d).exit =
      exitCode (execStages p.slack_notifications d ctx beh
        (selectionList p)).outcome := rfl

lemma runBuild_trace (p : ResolvedParams) (ctx : BuildContext)
    (beh : BuildContext → Stage → StageOutcome) (elapsed : Nat)
    (d : Event → Bool) :
    (runBuild p ctx beh elapsed d).trace =
      (if p.slack_notifications then
        [Event.runStarted ctx.build_type ctx.architecture]
      else []) ++
      (execStages p.slack_notifications d ctx beh (selectionList p)).trace
      ++
      (if p.slack_notifications then
        [terminalEvent elapsed
          (execStages p.slack_notifications d ctx beh
            (selectionList p)).outcome]
      else []) := by
  cases hsl : p.slack_notifications <;>
    simp [runBuild, hsl, notifyAttempt_fst]

lemma execStages_false_no_notify (d : Event → Bool) (ctx : BuildContext)
    (beh : BuildContext → Stage → StageOutcome)
    (l : List (Stage × Bool)) :
    (execStages false d ctx beh l).trace.countP isNotifyEvent = 0 ∧
      (execStages false d ctx beh l).delivered = [] := by
  induction l with
  | nil => simp [execStages_nil]
  | cons x rest ih =>
      obtain ⟨s, flag⟩ := x
      cases flag with
      | false => rw [execStages_cons_false]; exact ih
      | true =>
          cases hb : beh ctx s with
          | success =>
              rw [execStages_cons_success hb]
              refine ⟨?_, ?_⟩
              · simp [List.countP_cons, isNotifyEvent, ih.1]
              · simp [ih.2]
          | fault m =>
              rw [execStages_cons_fault hb]
              exact ⟨by simp [List.countP_cons, isNotifyEvent], rfl⟩
          | interrupt =>
              rw [execStages_cons_interrupt hb]
              exact ⟨by simp [List.countP_cons, isNotifyEvent], rfl⟩

lemma countP_successTrace_runFailed (slack : Bool) (ctx : BuildContext)
    (l : List (Stage × Bool)) :
    (successTrace slack ctx l).countP isRunFailedEv = 0 := by
  rw [List.countP_eq_zero]
  intro e he
  obtain ⟨x, _, _, h⟩ := successTrace_mem l e he
  rcases h with rfl | rfl <;> simp [isRunFailedEv]

lemma stageOf_runStarted (b a : String) :
    stageOf (Event.runStarted b a) = none := rfl

lemma executedStages_runBuild (p : ResolvedParams) (ctx : BuildContext)
    (beh : BuildContext → Stage → StageOutcome) (elapsed : Nat)
    (d : Event → Bool) :
    executedStages (runBuild p ctx beh elapsed d) =
      (execStages p.slack_notifications d ctx beh
        (selectionList p)).trace.filterMap stageOf := by
  rw [executedStages, runBuild_trace, List.filterMap_append,
    List.filterMap_append]
  cases p.slack_notifications <;>
    simp [stageOf_runStarted, stageOf_terminal]

lemma exec_map_sublist {slack : Bool} {d : Event → Bool}
    {ctx : BuildContext} {beh : BuildContext → Stage → StageOutcome}
    {p : ResolvedParams} (l : List Stage) :
    List.Sublist
      ((execStages slack d ctx beh
        (l.map fun t => (t, selFlag p t))).trace.filterMap stageOf)
      (l.filter fun t => selFlag p t) := by
  induction l with
  | nil => simp [execStages_nil]
  | cons t rest ih =>
      simp only [List.map_cons]
      cases hf : selFlag p t with
      | false =>
          rw [execStages_cons_false, List.filter_cons]
          simpa [hf] using ih
      | true =>
          cases hb : beh ctx t with
          | success =>
              rw [execStages_cons_success hb, List.filter_cons]
              cases slack <;>
                · simp [stageOf, hf]
                  exact ih
          | fault m =>
              rw [execStages_cons_fault hb, List.filter_cons]
              simp [stageOf, hf]
          | interrupt =>
              rw [execStages_cons_interrupt hb, List.filter_cons]
              simp [stageOf, hf]

lemma successTrace_executed {slack : Bool} {ctx : BuildContext}
    {p : ResolvedParams} (l : List Stage) :
    (successTrace slack ctx
        (l.map fun t => (t, selFlag p t))).filterMap stageOf =
      l.filter fun t => selFlag p t := by
  induction l with
  | nil => rfl
  | cons t rest ih =>
      simp only [List.map_cons]
      cases hf : selFlag p t with
      | false => simp [successTrace, hf, ih, List.filter_cons]
      | true =>
          cases slack <;>
            simp [successTrace, hf, ih, List.filter_cons, stageOf]

/-! ### Claims -/

/-- C1: the claim says a CLI flag explicitly set to `true` is never
overridden by the config file.  The code (`build.py` lines 77, 88) uses
`config[...].get(key, cli_value)`, so a config key present with value
`false` overrides a CLI `true`: with `--slack-notifications` and
`-C` (clean) on the CLI and a config document whose `notifications.slack`
and `steps.clean` are `false`, both resolve to `false` — contradicting
the code's own comment at line 86 ("Override slack notifications from
config if not explicitly set via CLI"). -/
theorem c1_config_false_overrides_cli_true :
    (resolveParams noFS "/root"
      { config_file := some
          { steps := some { clean := some false }
            notifications := some { slack := some false } }
        clean_flag := true
        slack_notifications := true }).slack_notifications = false ∧
    (resolveParams noFS "/root"
      { config_file := some
          { steps := some { clean := some false }
            notifications := some { slack := some false } }
        clean_flag := true
        slack_notifications := true }).clean_flag = false :=
  ⟨rfl, rfl⟩

/-- C2 counterexample: (1) when both the CLI path and the config path
exist, the resolved source directory is the config path, not the CLI
path as the claim states; (2) a nonexistent config path is skipped with
no warning recorded, while the claim says a warning is recorded. -/
theorem c2_counterexample :
    ((resolveParams (fun q => q == "/cli_src" || q == "/cfg_src") "/root"
      { chromium_src_dir := some "/cli_src"
        config_file := some
          { paths := some { chromium_src := some "/cfg_src" } } }
      ).chromium_src = "/cfg_src") ∧
    ¬ ((resolveParams (fun q => q == "/cli_src" || q == "/cfg_src") "/root"
      { chromium_src_dir := some "/cli_src"
        config_file := some
          { paths := some { chromium_src := some "/cfg_src" } } }
      ).chromium_src = "/cli_src") ∧
    (resolveParams noFS "/root"
      { config_file := some
          { paths := some { chromium_src := some "/missing" } } }
      ).warnings = [] := by
  refine ⟨rfl, by decide, rfl⟩

/-- C2 (amended): for every run, a config-file path that exists on disk
wins over any CLI-supplied path (the config check runs after the CLI
check); otherwise the CLI-supplied path wins when it exists; a
CLI-supplied path that does not exist is skipped with a recorded warning
and resolution falls back to `rootDir/chromium_src`; a config-file path
that does not exist is skipped silently, with no warning recorded. -/
theorem c2_chromium_src_resolution (fs : String → Bool)
    (root_dir : String) (a : CLIArgs) :
    (resolveParams fs root_dir a).chromium_src =
      (match configSrc a with
       | some q => if fs q then q else cliResolvedSrc fs root_dir a
       | none => cliResolvedSrc fs root_dir a) ∧
    (resolveParams fs root_dir a).warnings =
      (match a.chromium_src_dir with
       | some p =>
          if fs p then []
          else ["Provided path does not exist: " ++ p]
       | none => []) := by
  obtain ⟨cf, f1, f2, f3, f4, f5, f6, ar, bt, src, sl⟩ := a
  cases cf with
  | none =>
      cases src with
      | none => exact ⟨rfl, rfl⟩
      | some p =>
          cases hp : fs p <;>
            simp [resolveParams, configSrc, cliResolvedSrc, hp]
  | some config =>
      obtain ⟨b, st, n, gf, ps⟩ := config
      cases ps with
      | none =>
          cases src with
          | none => exact ⟨rfl, rfl⟩
          | some p =>
              cases hp : fs p <;>
                simp [resolveParams, configSrc, cliResolvedSrc, hp]
      | some pp =>
          obtain ⟨pcs⟩ := pp
          cases pcs with
          | none =>
              cases src with
              | none => exact ⟨rfl, rfl⟩
              | some p =>
                  cases hp : fs p <;>
                    simp [resolveParams, configSrc, cliResolvedSrc, hp]
          | some q =>
              cases src with
              | none =>
                  cases hq : fs q <;>
                    simp [resolveParams, configSrc, cliResolvedSrc, hq]
              | some p =>
                  cases hp : fs p <;> cases hq : fs q <;>
                    simp [resolveParams, configSrc, cliResolvedSrc,
                      hp, hq]

/-- C6: resolving the same CLI input, config document and filesystem
state twice yields contexts identical in every field except
`startTime`. -/
theorem c6_resolution_deterministic (fs : String → Bool)
    (root_dir : String) (a : CLIArgs) (t1 t2 : Nat) :
    ctxCore (contextOf root_dir (resolveParams fs root_dir a) t1) =
      ctxCore (contextOf root_dir (resolveParams fs root_dir a) t2) :=
  rfl

/-- C8: when a config section is absent, every parameter governed by
that section keeps its pre-resolution (CLI/default) value
(`build.py` lines 67-98: each override is guarded by a membership
test on the section key). -/
theorem c8_missing_section_frame (fs : String → Bool) (root_dir : String)
    (a : CLIArgs) (cfg : Config) (hc : a.config_file = some cfg) :
    (cfg.steps = none →
        (resolveParams fs root_dir a).clean_flag = a.clean_flag ∧
        (resolveParams fs root_dir a).git_setup_flag = a.git_setup_flag ∧
        (resolveParams fs root_dir a).apply_patches_flag =
          a.apply_patches_flag ∧
        (resolveParams fs root_dir a).build_flag = a.build_flag ∧
        (resolveParams fs root_dir a).sign_flag = a.sign_flag ∧
        (resolveParams fs root_dir a).package_flag = a.package_flag) ∧
    (cfg.notifications = none →
        (resolveParams fs root_dir a).slack_notifications =
          a.slack_notifications) ∧
    (cfg.build = none →
        (resolveParams fs root_dir a).build_type = a.build_type ∧
        (resolveParams fs root_dir a).arch = a.arch) ∧
    (cfg.gn_flags = none →
        (resolveParams fs root_dir a).gn_flags_file = none) ∧
    (cfg.paths = none →
        (resolveParams fs root_dir a).chromium_src =
          cliResolvedSrc fs root_dir a) := by
  obtain ⟨cf, f1, f2, f3, f4, f5, f6, ar, bt, src, sl⟩ := a
  subst hc
  obtain ⟨b, st, n, gf, ps⟩ := cfg
  refine ⟨?_, ?_, ?_, ?_, ?_⟩
  · intro h
    subst h
    exact ⟨rfl, rfl, rfl, rfl, rfl, rfl⟩
  · intro h
    subst h
    rfl
  · intro h
    subst h
    exact ⟨rfl, rfl⟩
  · intro h
    subst h
    rfl
  · intro h
    subst h
    cases src with
    | none => rfl
    | some p =>
        cases hp : fs p <;>
          simp [resolveParams, cliResolvedSrc, hp]

/-- C8 witness: a config file with every section absent alongside CLI
flags `clean`, `sign`, `slack-notifications`. -/
theorem c8_witness :
    (resolveParams noFS "/r" c8args).clean_flag = c8args.clean_flag ∧
    (resolveParams noFS "/r" c8args).slack_notifications =
      c8args.slack_notifications ∧
    (resolveParams noFS "/r" c8args).build_type = c8args.build_type ∧
    (resolveParams noFS "/r" c8args).gn_flags_file = none ∧
    (resolveParams noFS "/r" c8args).chromium_src =
      cliResolvedSrc noFS "/r" c8args :=
  ⟨((c8_missing_section_frame noFS "/r" c8args {} rfl).1 rfl).1,
   (c8_missing_section_frame noFS "/r" c8args {} rfl).2.1 rfl,
   ((c8_missing_section_frame noFS "/r" c8args {} rfl).2.2.1 rfl).1,
   (c8_missing_section_frame noFS "/r" c8args {} rfl).2.2.2.1 rfl,
   (c8_missing_section_frame noFS "/r" c8args {} rfl).2.2.2.2 rfl⟩

/-- C3: the exit status is 0 when every selected stage succeeds, 1 when
the first non-succeeding selected stage raises a fault, 130 when it is
interrupted; the three codes are pairwise distinct. -/
theorem c3_exit_status_contract (p : ResolvedParams) (ctx : BuildContext)
    (beh : BuildContext → Stage → StageOutcome) (elapsed : Nat)
    (d : Event → Bool) :
    ((∀ t, selFlag p t = true → beh ctx t = StageOutcome.success) →
        (runBuild p ctx beh elapsed d).exit = 0) ∧
    (∀ s m, selFlag p s = true → beh ctx s = StageOutcome.fault m →
        (∀ t, stagePos t < stagePos s → selFlag p t = true →
            beh ctx t = StageOutcome.success) →
        (runBuild p ctx beh elapsed d).exit = 1) ∧
    (∀ s, selFlag p s = true → beh ctx s = StageOutcome.interrupt →
        (∀ t, stagePos t < stagePos s → selFlag p t = true →
            beh ctx t = StageOutcome.success) →
        (runBuild p ctx beh elapsed d).exit = 130) ∧
    ((0 : Nat) ≠ 1 ∧ (0 : Nat) ≠ 130 ∧ (1 : Nat) ≠ 130) := by
  refine ⟨?_, ?_, ?_, by decide⟩
  · intro h
    have h' : ∀ x ∈ selectionList p, x.2 = true →
        beh ctx x.1 = StageOutcome.success := by
      intro x hx
      obtain ⟨t, ht, rfl⟩ := List.mem_map.mp hx
      exact fun h2 => h t h2
    rw [runBuild_exit, execStages_success_of (selectionList p) h']
    rfl
  · intro s m hsel hfault hearlier
    have hdec := selectionList_decomp p s
    rw [hsel] at hdec
    have h1 : ∀ x ∈ (stagesBefore s).map (fun t => (t, selFlag p t)),
        x.2 = true → beh ctx x.1 = StageOutcome.success := by
      intro x hx hx2
      obtain ⟨t, ht, rfl⟩ := List.mem_map.mp hx
      exact hearlier t (mem_stagesBefore.mp ht) hx2
    have hne : beh ctx s ≠ StageOutcome.success := by simp [hfault]
    have hE := @execStages_halt p.slack_notifications d ctx beh
      ((stagesBefore s).map (fun t => (t, selFlag p t)))
      ((stagesAfter s).map (fun t => (t, selFlag p t))) s h1 hne
    rw [runBuild_exit, hdec, hE, hfault]
    rfl
  · intro s hsel hint hearlier
    have hdec := selectionList_decomp p s
    rw [hsel] at hdec
    have h1 : ∀ x ∈ (stagesBefore s).map (fun t => (t, selFlag p t)),
        x.2 = true → beh ctx x.1 = StageOutcome.success := by
      intro x hx hx2
      obtain ⟨t, ht, rfl⟩ := List.mem_map.mp hx
      exact hearlier t (mem_stagesBefore.mp ht) hx2
    have hne : beh ctx s ≠ StageOutcome.success := by simp [hint]
    have hE := @execStages_halt p.slack_notifications d ctx beh
      ((stagesBefore s).map (fun t => (t, selFlag p t)))
      ((stagesAfter s).map (fun t => (t, selFlag p t))) s h1 hne
    rw [runBuild_exit, hdec, hE, hint]
    rfl

/-- C3 witness: all stages selected; success, a build-stage fault and a
sign-stage interrupt yield exit statuses 0, 1 and 130. -/
theorem c3_witness :
    (runBuild sampleParams sampleCtx allSuccess 65 allDeliver).exit = 0 ∧
    (runBuild sampleParams sampleCtx faultAtBuild 65 allDeliver).exit = 1 ∧
    (runBuild sampleParams sampleCtx interruptAtSign 65
      allDeliver).exit = 130 :=
  ⟨(c3_exit_status_contract sampleParams sampleCtx allSuccess 65
      allDeliver).1 (fun _ _ => rfl),
   (c3_exit_status_contract sampleParams sampleCtx faultAtBuild 65
      allDeliver).2.1 Stage.build "boom" (by decide) (by decide)
      (by decide),
   (c3_exit_status_contract sampleParams sampleCtx interruptAtSign 65
      allDeliver).2.2.1 Stage.sign (by decide) (by decide) (by decide)⟩

/-- C4: if the first non-succeeding selected stage raises a fault, no
later stage executes, no step-completion notification fires for that
stage or any later stage, and exactly one `runFailed` notification
fires when notifications are enabled (none when disabled). -/
theorem c4_fault_short_circuit (p : ResolvedParams) (ctx : BuildContext)
    (beh : BuildContext → Stage → StageOutcome) (elapsed : Nat)
    (d : Event → Bool) (s : Stage) (m : String)
    (hsel : selFlag p s = true)
    (hfault : beh ctx s = StageOutcome.fault m)
    (hearlier : ∀ t, stagePos t < stagePos s → selFlag p t = true →
        beh ctx t = StageOutcome.success) :
    (∀ t c, stagePos s < stagePos t →
        Event.stageExec t c ∉ (runBuild p ctx beh elapsed d).trace) ∧
    (∀ t, stagePos s ≤ stagePos t →
        Event.stepCompleted (stageDesc t) ∉
          (runBuild p ctx beh elapsed d).trace) ∧
    (runBuild p ctx beh elapsed d).trace.countP isRunFailedEv =
      (if p.slack_notifications then 1 else 0) := by
  have hdec := selectionList_decomp p s
  rw [hsel] at hdec
  have h1 : ∀ x ∈ (stagesBefore s).map (fun t => (t, selFlag p t)),
      x.2 = true → beh ctx x.1 = StageOutcome.success := by
    intro x hx hx2
    obtain ⟨t, ht, rfl⟩ := List.mem_map.mp hx
    exact hearlier t (mem_stagesBefore.mp ht) hx2
  have hne : beh ctx s ≠ StageOutcome.success := by simp [hfault]
  have hE := @execStages_halt p.slack_notifications d ctx beh
    ((stagesBefore s).map (fun t => (t, selFlag p t)))
    ((stagesAfter s).map (fun t => (t, selFlag p t))) s h1 hne
  have htr : (runBuild p ctx beh elapsed d).trace =
      (if p.slack_notifications then
        [Event.runStarted ctx.build_type ctx.architecture]
      else []) ++
      (successTrace p.slack_notifications ctx
        ((stagesBefore s).map (fun t => (t, selFlag p t))) ++
        [Event.stageExec s ctx]) ++
      (if p.slack_notifications then [Event.runFailed m] else []) := by
    rw [runBuild_trace, hdec, hE, hfault]
    rfl
  refine ⟨?_, ?_, ?_⟩
  · intro t c hpos hmem
    rw [htr] at hmem
    rcases List.mem_append.mp hmem with hmem | hmem
    · rcases List.mem_append.mp hmem with hmem | hmem
      · exact Event.noConfusion (mem_if_singleton hmem)
      · rcases List.mem_append.mp hmem with hmem | hmem
        · obtain ⟨x, hx, hx2, hcase⟩ := successTrace_mem _ _ hmem
          obtain ⟨u, hu, rfl⟩ := List.mem_map.mp hx
          rcases hcase with hh | hh
          · injection hh with h1' h2'
            have h1'' : t = u := h1'
            have hlt := mem_stagesBefore.mp hu
            rw [h1''] at hpos
            omega
          · exact Event.noConfusion hh
        · have hh := List.mem_singleton.mp hmem
          injection hh with h1' h2'
          rw [h1'] at hpos
          omega
    · exact Event.noConfusion (mem_if_singleton hmem)
  · intro t hpos hmem
    rw [htr] at hmem
    rcases List.mem_append.mp hmem with hmem | hmem
    · rcases List.mem_append.mp hmem with hmem | hmem
      · exact Event.noConfusion (mem_if_singleton hmem)
      · rcases List.mem_append.mp hmem with hmem | hmem
        · obtain ⟨x, hx, hx2, hcase⟩ := successTrace_mem _ _ hmem
          obtain ⟨u, hu, rfl⟩ := List.mem_map.mp hx
          rcases hcase with hh | hh
          · exact Event.noConfusion hh
          · injection hh with h1'
            have hut := stageDesc_inj t u h1'
            have hlt := mem_stagesBefore.mp hu
            rw [← hut] at hlt
            omega
        · exact Event.noConfusion (List.mem_singleton.mp hmem)
    · exact Event.noConfusion (mem_if_singleton hmem)
  · rw [htr, List.countP_append, List.countP_append]
    cases p.slack_notifications <;>
      simp [List.countP_cons, isRunFailedEv,
        countP_successTrace_runFailed]

/-- C4 witness: with every stage selected and the build stage faulting,
the sign stage never executes and exactly one `runFailed` fires. -/
theorem c4_witness :
    Event.stageExec Stage.sign sampleCtx ∉
      (runBuild sampleParams sampleCtx faultAtBuild 65 allDeliver).trace ∧
    (runBuild sampleParams sampleCtx faultAtBuild 65
        allDeliver).trace.countP isRunFailedEv = 1 :=
  ⟨(c4_fault_short_circuit sampleParams sampleCtx faultAtBuild 65
      allDeliver Stage.build "boom" (by decide) (by decide)
      (by decide)).1 Stage.sign sampleCtx (by decide),
   (c4_fault_short_circuit sampleParams sampleCtx faultAtBuild 65
      allDeliver Stage.build "boom" (by decide) (by decide)
      (by decide)).2.2⟩

/-- C5: the exit status and the attempted-notification trace of a run
are independent of the delivery oracle — a notification delivery
failure never changes the outcome classification or the exit status. -/
theorem c5_notification_best_effort (p : ResolvedParams)
    (ctx : BuildContext) (beh : BuildContext → Stage → StageOutcome)
    (elapsed : Nat) (d1 d2 : Event → Bool) :
    (runBuild p ctx beh elapsed d1).exit =
        (runBuild p ctx beh elapsed d2).exit ∧
    (runBuild p ctx beh elapsed d1).trace =
        (runBuild p ctx beh elapsed d2).trace := by
  have h := @execStages_trace_indep p.slack_notifications d1 d2 ctx beh
    (selectionList p)
  constructor
  · rw [runBuild_exit, runBuild_exit, h.2]
  · rw [runBuild_trace, runBuild_trace, h.1, h.2]

/-- C7: the executed stages of any run form a sublist of the selected
stages taken in fixed pipeline order (so execution never reorders), with
equality when every selected stage succeeds; in the scenario where the
CLI selects only `build` and the config sets `steps.sign`, the resolved
selection is `[build, sign]` and the run executes build then sign. -/
theorem c7_selection_fixed_order (p : ResolvedParams)
    (ctx : BuildContext) (beh : BuildContext → Stage → StageOutcome)
    (elapsed : Nat) (d : Event → Bool) :
    List.Sublist (executedStages (runBuild p ctx beh elapsed d))
      (selectedStages p) ∧
    ((∀ t, selFlag p t = true → beh ctx t = StageOutcome.success) →
        executedStages (runBuild p ctx beh elapsed d) =
          selectedStages p) ∧
    selectedStages (resolveParams noFS "/root" c7args) =
      [Stage.build, Stage.sign] ∧
    executedStages (runBuild (resolveParams noFS "/root" c7args)
        (contextOf "/root" (resolveParams noFS "/root" c7args) 0)
        allSuccess 0 allDeliver) = [Stage.build, Stage.sign] := by
  refine ⟨?_, ?_, by rfl, by rfl⟩
  · rw [executedStages_runBuild]
    exact @exec_map_sublist p.slack_notifications d ctx beh p
      pipelineOrder
  · intro h
    have h' : ∀ x ∈ selectionList p, x.2 = true →
        beh ctx x.1 = StageOutcome.success := by
      intro x hx
      obtain ⟨t, ht, rfl⟩ := List.mem_map.mp hx
      exact fun h2 => h t h2
    rw [executedStages_runBuild,
      execStages_success_of (selectionList p) h']
    exact @successTrace_executed p.slack_notifications ctx p
      pipelineOrder

/-- C7 witness: with every stage selected and succeeding, the executed
stages equal the selected stages. -/
theorem c7_witness :
    executedStages (runBuild sampleParams sampleCtx allSuccess 65
        allDeliver) = selectedStages sampleParams :=
  (c7_selection_fixed_order sampleParams sampleCtx allSuccess 65
    allDeliver).2.1 (fun _ _ => rfl)

/-- C9 counterexample: the Windows compile wrapper
(`modules/win/compile.py` lines 58-63) mutates three fields of the
constructed context (`CHROMIUM_APP_NAME`, `NXTSCAPE_APP_NAME`,
`out_dir`), not two as the claim states. -/
theorem c9_counterexample :
    (changedFields (winContext "/r" 0)
        (winOverride (winContext "/r" 0))).length = 3 ∧
    ¬ ((changedFields (winContext "/r" 0)
        (winOverride (winContext "/r" 0))).length = 2) := by
  constructor <;> decide

/-- C9 (amended): within `build_main` every executed stage receives the
constructed context unchanged; the single exception is the Windows
compile wrapper, which mutates exactly three fields post-construction:
`CHROMIUM_APP_NAME`, `NXTSCAPE_APP_NAME` and `out_dir`. -/
theorem c9_context_immutability (fs : String → Bool)
    (root_dir : String) (a : CLIArgs) (now elapsed : Nat)
    (beh : BuildContext → Stage → StageOutcome) (d : Event → Bool) :
    (∀ s c, Event.stageExec s c ∈
        (buildMain fs root_dir a now elapsed beh d).trace →
        c = contextOf root_dir (resolveParams fs root_dir a) now) ∧
    (∀ root2 now2,
        changedFields (winContext root2 now2)
            (winOverride (winContext root2 now2)) =
          ["CHROMIUM_APP_NAME", "NXTSCAPE_APP_NAME", "out_dir"]) := by
  constructor
  · intro s c hmem
    rw [show buildMain fs root_dir a now elapsed beh d =
        runBuild (resolveParams fs root_dir a)
          (contextOf root_dir (resolveParams fs root_dir a) now)
          beh elapsed d from rfl, runBuild_trace] at hmem
    rcases List.mem_append.mp hmem with hmem | hmem
    · rcases List.mem_append.mp hmem with hmem | hmem
      · exact Event.noConfusion (mem_if_singleton hmem)
      · exact execStages_ctx _ _ hmem s c rfl
    · have hh := mem_if_singleton hmem
      have h2 := congrArg stageOf hh
      rw [stageOf_terminal] at h2
      exact Option.noConfusion h2
  · intro root2 now2
    simp [winContext, mkBuildContext, winOverride, changedFields,
      CHROMIUM_APP_NAME_DEFAULT, NXTSCAPE_APP_NAME_DEFAULT,
      CHROMIUM_VERSION, NXTSCAPE_VERSION]

/-- C9 witness: in a run that executes the clean stage, the context the
stage receives is the constructed context. -/
theorem c9_witness :
    c9ctx = contextOf "/root" (resolveParams noFS "/root" c9args) 0 :=
  (c9_context_immutability noFS "/root" c9args 0 65 allSuccess
    allDeliver).1 Stage.clean c9ctx (by decide)

lemma runBuild_delivered (p : ResolvedParams) (ctx : BuildContext)
    (beh : BuildContext → Stage → StageOutcome) (elapsed : Nat)
    (d : Event → Bool) :
    (runBuild p ctx beh elapsed d).delivered =
      (if p.slack_notifications then
        (notifyAttempt d
          (Event.runStarted ctx.build_type ctx.architecture)).2
      else []) ++
      (execStages p.slack_notifications d ctx beh
        (selectionList p)).delivered ++
      (if p.slack_notifications then
        (notifyAttempt d (terminalEvent elapsed
          (execStages p.slack_notifications d ctx beh
            (selectionList p)).outcome)).2
      else []) := by
  cases hsl : p.slack_notifications <;> simp [runBuild, hsl]

/-- C10: when the resolved slack-notification toggle is false, the run
attempts no notification at all — every trace event is a stage
execution and nothing is delivered — for every selection and every
outcome. -/
theorem c10_notifications_off_silence (p : ResolvedParams)
    (ctx : BuildContext) (beh : BuildContext → Stage → StageOutcome)
    (elapsed : Nat) (d : Event → Bool)
    (h : p.slack_notifications = false) :
    (runBuild p ctx beh elapsed d).trace.countP isNotifyEvent = 0 ∧
    (runBuild p ctx beh elapsed d).delivered = [] := by
  constructor
  · rw [runBuild_trace, h]
    simpa using (execStages_false_no_notify d ctx beh
      (selectionList p)).1
  · rw [runBuild_delivered, h]
    simpa using (execStages_false_no_notify d ctx beh
      (selectionList p)).2

/-- C10 witness: a run with notifications disabled attempts and
delivers no notification. -/
theorem c10_witness :
    (runBuild sampleParamsNoSlack sampleCtx allSuccess 65
        allDeliver).trace.countP isNotifyEvent = 0 ∧
    (runBuild sampleParamsNoSlack sampleCtx allSuccess 65
        allDeliver).delivered = [] :=
  c10_notifications_off_silence sampleParamsNoSlack sampleCtx
    allSuccess 65 allDeliver rfl
